import Mathlib

/-!
Verification development for the ZorinShot annotation editor
(`zorinshot_enhanced.py`, `zorinshot_settings.py`).

The editor's annotation core is shallowly embedded: Python floats become
rationals (all geometry in the properties below is exact in both), the
mutable `EditorWindow` fields become an explicit `EditorState` record, and
each GTK event callback becomes a state-transition function.  External
collaborators (the text-entry dialog, the file writer, the clipboard) are
modelled by boolean/string oracle parameters carrying their outcome; they
never touch the canvas fields except where the source assigns to them.
-/

/-- A 2-D point, as produced by pointer events (`e.x, e.y`). -/
abbrev Pt := ℚ × ℚ

/-- RGBA color, each channel 0-255 (`default_color_*` settings fields). -/
structure Rgba where
  r : ℕ
  g : ℕ
  b : ℕ
  a : ℕ
deriving DecidableEq, Repr

/-- The four annotation dataclasses of `zorinshot_enhanced.py`
(`PenStroke`, `RectShape`, `ArrowShape`, `TextLabel`), as one closed
tagged union. -/
inductive Shape where
  | penStroke (points : List Pt) (width : ℚ) (color : Rgba)
  | rectShape (x y w h : ℚ) (width : ℚ) (color : Rgba)
  | arrowShape (x1 y1 x2 y2 : ℚ) (width : ℚ) (color : Rgba)
  | textLabel (x y : ℚ) (text : String) (fontSize : ℕ) (color : Rgba)
deriving DecidableEq, Repr

/-- The drawing tools of `EditorWindow` (`TOOL_PEN`, `TOOL_RECT`,
`TOOL_ARROW`, `TOOL_TEXT`). -/
inductive Tool where
  | pen | rect | arrow | text
deriving DecidableEq, Repr

/-- The fields of `ZorinShotSettings` used by the annotation core, with the
source's dataclass defaults. -/
structure Settings where
  default_pen_width : ℚ := 3
  default_arrow_width : ℚ := 3
  default_rect_width : ℚ := 3
  default_text_size : ℕ := 16
  default_color_r : ℕ := 153
  default_color_g : ℕ := 51
  default_color_b : ℕ := 255
  default_color_a : ℕ := 242
  show_save_confirmation : Bool := true
  max_undo_levels : ℕ := 20
deriving Repr

/-- The source's default settings record (every field at its dataclass
default). -/
def defaultSettings : Settings := {}

/-- `SettingsManager.get_default_color`. -/
def get_default_color (cfg : Settings) : Rgba :=
  ⟨cfg.default_color_r, cfg.default_color_g, cfg.default_color_b, cfg.default_color_a⟩

/-- The mutable annotation state of `EditorWindow`: current tool, the
`drawing` flag, the in-progress draft `temp_points`, the committed
`shapes`, the `undo_stack` of snapshots, and the `modified` flag. -/
structure EditorState where
  current_tool : Tool
  drawing : Bool
  temp_points : List Pt
  shapes : List Shape
  undo_stack : List (List Shape)
  modified : Bool
deriving DecidableEq, Repr

/-- `EditorWindow.__init__`: empty canvas, `drawing = False`, tool taken
from `last_selected_tool` (default "arrow"), `modified = False`. -/
def initState : EditorState :=
  { current_tool := Tool.arrow
    drawing := false
    temp_points := []
    shapes := []
    undo_stack := []
    modified := false }

/-- The undo-stack push used at both commit sites (`on_button_release`
lines 493-495 and `create_text_at` lines 551-553): append a snapshot of
the current shapes, then, if the stack now exceeds `max_undo_levels`,
`pop(0)` the oldest (bottom) entry. -/
def pushUndo (maxLevels : ℕ) (stack : List (List Shape)) (snapshot : List Shape) :
    List (List Shape) :=
  let st := stack ++ [snapshot]
  if maxLevels < st.length then st.tail else st

/-- `EditorWindow.undo` (lines 649-656): if the stack is non-empty, pop the
most recent snapshot into `shapes` and set `modified`; otherwise do
nothing. -/
def undo (s : EditorState) : EditorState :=
  if s.undo_stack = [] then s
  else
    { s with
      shapes := s.undo_stack.getLastD []
      undo_stack := s.undo_stack.dropLast
      modified := true }

/-- `EditorWindow.set_tool`: the canvas-state effect is just replacing the
current tool (the settings write is persistence outside the canvas). -/
def set_tool (t : Tool) (s : EditorState) : EditorState :=
  { s with current_tool := t }

/-- Model of Python's `str.strip()`: drop whitespace from both ends. -/
def strip (t : String) : String :=
  String.mk (((t.toList.dropWhile Char.isWhitespace).reverse.dropWhile
      Char.isWhitespace).reverse)

/-- `EditorWindow.create_text_at` (lines 529-565).  The modal dialog is an
oracle: `responseOk` is whether OK was pressed, `rawText` the entry text.
On OK with non-empty stripped text: push the undo snapshot, append a
`TextLabel`, set `modified`.  Otherwise the state is unchanged. -/
def create_text_at (cfg : Settings) (x y : ℚ) (responseOk : Bool) (rawText : String)
    (s : EditorState) : EditorState :=
  if responseOk then
    let text := strip rawText
    if text ≠ "" then
      { s with
        undo_stack := pushUndo cfg.max_undo_levels s.undo_stack s.shapes
        shapes := s.shapes ++
          [Shape.textLabel x y text cfg.default_text_size (get_default_color cfg)]
        modified := true }
    else s
  else s

/-- `EditorWindow.on_button_press` (lines 449-462): non-primary buttons are
ignored; otherwise set `drawing`, reset the draft to the press point, and
for the text tool run the text dialog synchronously and leave `drawing`
false. -/
def on_button_press (cfg : Settings) (button : ℕ) (x y : ℚ)
    (responseOk : Bool) (rawText : String) (s : EditorState) : EditorState :=
  if button ≠ 1 then s
  else
    let s1 := { s with drawing := true, temp_points := [(x, y)] }
    if s1.current_tool = Tool.text then
      let s2 := create_text_at cfg x y responseOk rawText s1
      { s2 with drawing := false }
    else s1

/-- `EditorWindow.on_motion` (lines 464-480): ignored unless `drawing`.
The pen appends every point; the other tools append the second point once
and thereafter overwrite index 1 with the latest position. -/
def on_motion (x y : ℚ) (s : EditorState) : EditorState :=
  if s.drawing = false then s
  else
    let tp :=
      if s.current_tool = Tool.pen then s.temp_points ++ [(x, y)]
      else if s.temp_points.length = 1 then s.temp_points ++ [(x, y)]
      else s.temp_points.set 1 (x, y)
    { s with temp_points := tp }

/-- Model of Python's built-in `min` on two floats (phrased via integer
numerator comparison so the kernel can evaluate it; proved equal to
`min` below). -/
def rmin (a b : ℚ) : ℚ := if 0 ≤ (b - a).num then a else b

/-- Model of Python's built-in `abs` on a float (same remark; proved equal
to `abs` below). -/
def rabs (a : ℚ) : ℚ := if a.num < 0 then -a else a

/-- The shape-construction chain of `on_button_release` (lines 501-521):
a pen stroke needs at least two tracked points and stores a copy of the
draft; rectangle and arrow need at least two tracked points and use the
first and last of them (`temp_points[0]`, `temp_points[-1]`); the
rectangle is normalized via min/abs.  Any other case appends nothing. -/
def commitShapes (cfg : Settings) (tool : Tool) (tps : List Pt)
    (shapes : List Shape) : List Shape :=
  if tool = Tool.pen ∧ 2 ≤ tps.length then
    shapes ++ [Shape.penStroke tps cfg.default_pen_width (get_default_color cfg)]
  else if tool = Tool.rect ∧ 2 ≤ tps.length then
    let p1 := tps.headD (0, 0)
    let p2 := tps.getLastD (0, 0)
    shapes ++ [Shape.rectShape (rmin p1.1 p2.1) (rmin p1.2 p2.2)
      (rabs (p2.1 - p1.1)) (rabs (p2.2 - p1.2)) cfg.default_rect_width
      (get_default_color cfg)]
  else if tool = Tool.arrow ∧ 2 ≤ tps.length then
    let p1 := tps.headD (0, 0)
    let p2 := tps.getLastD (0, 0)
    shapes ++ [Shape.arrowShape p1.1 p1.2 p2.1 p2.2 cfg.default_arrow_width
      (get_default_color cfg)]
  else shapes

/-- `EditorWindow.on_button_release` (lines 482-527): ignored unless the
primary button is released while `drawing`.  `drawing` is cleared; an
empty draft returns early; otherwise the undo snapshot is pushed (before
any validation), the shape chain runs, the draft is cleared and
`modified` is set - all regardless of whether a shape was accepted. -/
def on_button_release (cfg : Settings) (button : ℕ) (s : EditorState) : EditorState :=
  if button ≠ 1 ∨ s.drawing = false then s
  else if s.temp_points = [] then { s with drawing := false }
  else
    { s with
      drawing := false
      undo_stack := pushUndo cfg.max_undo_levels s.undo_stack s.shapes
      shapes := commitShapes cfg s.current_tool s.temp_points s.shapes
      temp_points := []
      modified := true }

/-- Canvas-state effect of `quick_save` / the accepted `save_dialog` path
(lines 658-693, 719-775): the file write is an oracle; on success
`modified` is cleared, on failure (exception caught) nothing modelled is
touched. -/
def quick_save (saveOk : Bool) (s : EditorState) : EditorState :=
  if saveOk then { s with modified := false } else s

/-- Canvas-state effect of `copy_to_clipboard` (lines 695-717): it renders
to a temp file and publishes it, but assigns to no canvas field
(in particular it never clears `modified`). -/
def copy_to_clipboard (s : EditorState) : EditorState := s

/-- Canvas-state effect of closing (`on_close`, lines 426-447): with
unsaved changes and confirmation enabled, a yes answer triggers a save
whose success clears `modified`; every other path changes nothing. -/
def on_close (cfg : Settings) (respYes saveOk : Bool) (s : EditorState) : EditorState :=
  if s.modified ∧ cfg.show_save_confirmation ∧ respYes then quick_save saveOk s else s

/-- The keyboard shortcuts of `on_key` (lines 392-424), with oracles for
the dialogs/writes they may trigger.  Note the source consults `drawing`
nowhere in this handler. -/
inductive KeyEvent where
  | keyP | keyR | keyA | keyT
  | ctrlZ
  | ctrlShiftS (saveOk : Bool)
  | ctrlS (saveOk : Bool)
  | ctrlC
  | keyReturn
  | keyEscape (respYes saveOk : Bool)
  | keyU
deriving DecidableEq, Repr

/-- `EditorWindow.on_key` (lines 392-424): tool keys switch the tool,
Ctrl+Z calls `undo`, the save keys run a save, Enter/Ctrl+C copy to the
clipboard, Escape closes (running `on_close`), U is the upload
placeholder. -/
def on_key (cfg : Settings) (k : KeyEvent) (s : EditorState) : EditorState :=
  match k with
  | KeyEvent.keyP => set_tool Tool.pen s
  | KeyEvent.keyR => set_tool Tool.rect s
  | KeyEvent.keyA => set_tool Tool.arrow s
  | KeyEvent.keyT => set_tool Tool.text s
  | KeyEvent.ctrlZ => undo s
  | KeyEvent.ctrlShiftS ok => quick_save ok s
  | KeyEvent.ctrlS ok => quick_save ok s
  | KeyEvent.ctrlC => copy_to_clipboard s
  | KeyEvent.keyReturn => copy_to_clipboard s
  | KeyEvent.keyEscape respYes ok => on_close cfg respYes ok s
  | KeyEvent.keyU => s

/-- The input alphabet of the gesture state machine: pointer events with
their coordinates (the release handler receives but ignores its
coordinates) and keyboard events. -/
inductive Event where
  | buttonPress (button : ℕ) (x y : ℚ) (responseOk : Bool) (rawText : String)
  | motion (x y : ℚ)
  | buttonRelease (button : ℕ) (x y : ℚ)
  | key (k : KeyEvent)

/-- One step of the event-driven editor: dispatch to the GTK callback. -/
def stepEvent (cfg : Settings) (e : Event) (s : EditorState) : EditorState :=
  match e with
  | Event.buttonPress b x y ok raw => on_button_press cfg b x y ok raw s
  | Event.motion x y => on_motion x y s
  | Event.buttonRelease b _ _ => on_button_release cfg b s
  | Event.key k => on_key cfg k s

/-- Folding a list of motion events over the state. -/
def applyMotions (moves : List Pt) (s : EditorState) : EditorState :=
  moves.foldl (fun st p => on_motion p.1 p.2 st) s

/-- One full drag gesture: primary-button press at `start`, the given
motion events, then primary-button release.  (Dialog oracles are
irrelevant for the drag tools.) -/
def runGesture (cfg : Settings) (start : Pt) (moves : List Pt)
    (s : EditorState) : EditorState :=
  on_button_release cfg 1
    (applyMotions moves (on_button_press cfg 1 start.1 start.2 false "" s))

/-- `n` repetitions of a fixed accepted drag gesture (press at the origin,
one motion, release). -/
def commitN (cfg : Settings) : ℕ → EditorState → EditorState
  | 0, s => s
  | n + 1, s => commitN cfg n (runGesture cfg (0, 0) [(5, 5)] s)

/-- `math.atan2 y x`: the angle of the vector `(x, y)`, in `(-pi, pi]`,
modelled by the complex argument. -/
noncomputable def atan2 (y x : ℝ) : ℝ := Complex.arg ⟨x, y⟩

/-- The arrow-head length of the interactive renderer
(`draw_arrow`, line 576): `head_len = 12 + width * 2`. -/
noncomputable def draw_arrow_head_len (width : ℝ) : ℝ := 12 + width * 2

/-- The arrow-head length of the export renderer
(`_save_current_image_pil`, line 834): `head_len = 12 + shp.width * 2`. -/
noncomputable def pil_arrow_head_len (width : ℝ) : ℝ := 12 + width * 2

/-- The two arrow-head segment endpoints drawn by the interactive renderer
(`draw_arrow`, lines 575-588): angle from `atan2`, angular offset `pi/6`
on either side of the reversed line direction. -/
noncomputable def draw_arrow_head (x1 y1 x2 y2 width : ℝ) : (ℝ × ℝ) × (ℝ × ℝ) :=
  let ang := atan2 (y2 - y1) (x2 - x1)
  let head_len := draw_arrow_head_len width
  let head_ang := Real.pi / 6
  ((x2 - head_len * Real.cos (ang - head_ang),
    y2 - head_len * Real.sin (ang - head_ang)),
   (x2 - head_len * Real.cos (ang + head_ang),
    y2 - head_len * Real.sin (ang + head_ang)))

/-- The two arrow-head segment endpoints drawn by the export renderer
(`_save_current_image_pil`, lines 832-843), transcribed independently of
`draw_arrow`. -/
noncomputable def pil_arrow_head (x1 y1 x2 y2 width : ℝ) : (ℝ × ℝ) × (ℝ × ℝ) :=
  let ang := atan2 (y2 - y1) (x2 - x1)
  let head_len := pil_arrow_head_len width
  let head_ang := Real.pi / 6
  ((x2 - head_len * Real.cos (ang - head_ang),
    y2 - head_len * Real.sin (ang - head_ang)),
   (x2 - head_len * Real.cos (ang + head_ang),
    y2 - head_len * Real.sin (ang + head_ang)))

/-! ## Basic lemmas about the embedded operations -/

/-- `rmin` agrees with the mathematical binary minimum. -/
theorem rmin_eq_min (a b : ℚ) : rmin a b = min a b := by
  rw [rmin, min_def]
  by_cases h : a ≤ b
  · rw [if_pos, if_pos h]
    rw [Rat.num_nonneg]
    exact sub_nonneg.mpr h
  · rw [if_neg, if_neg h]
    rw [Rat.num_nonneg]
    exact fun hc => h (sub_nonneg.mp hc)

/-- `rabs` agrees with the mathematical absolute value. -/
theorem rabs_eq_abs (a : ℚ) : rabs a = |a| := by
  rw [rabs]
  by_cases h : 0 ≤ a
  · rw [if_neg, abs_of_nonneg h]
    exact fun hc => absurd (Rat.num_nonneg.mpr h) (by omega)
  · rw [if_pos, abs_of_neg (lt_of_not_ge h)]
    by_contra hc
    exact h (Rat.num_nonneg.mp (by omega))

/-- For a non-empty list the `getLastD` fallback is irrelevant under a
cons. -/
theorem getLastD_cons_of_ne_nil {α : Type} (p : α) (l : List α) (h : l ≠ []) (d : α) :
    (p :: l).getLastD d = l.getLastD d := by
  cases l with
  | nil => exact absurd rfl h
  | cons b bs => rfl

/-- Length of a `pushUndo` result. -/
theorem pushUndo_length (maxL : ℕ) (stack : List (List Shape)) (snap : List Shape) :
    (pushUndo maxL stack snap).length =
      if maxL < stack.length + 1 then stack.length else stack.length + 1 := by
  simp [pushUndo]
  split <;> simp [List.length_tail]

/-- `pushUndo` preserves the capacity bound. -/
theorem pushUndo_le (maxL : ℕ) (stack : List (List Shape)) (snap : List Shape)
    (h : stack.length ≤ maxL) : (pushUndo maxL stack snap).length ≤ maxL := by
  rw [pushUndo_length]
  split <;> omega

/-- When over capacity, `pushUndo` drops exactly the oldest (bottom)
snapshot. -/
theorem pushUndo_evicts_oldest (maxL : ℕ) (stack : List (List Shape)) (snap : List Shape)
    (h : maxL < stack.length + 1) : pushUndo maxL stack snap = (stack ++ [snap]).tail := by
  simp [pushUndo, h]

/-- With positive capacity, the newest snapshot always survives the push
as the top of the stack. -/
theorem pushUndo_getLastD (maxL : ℕ) (stack : List (List Shape)) (snap : List Shape)
    (h : 1 ≤ maxL) : (pushUndo maxL stack snap).getLastD [] = snap := by
  rw [pushUndo]
  split
  · rename_i hover
    cases stack with
    | nil => simp at hover; omega
    | cons a rest =>
        simp only [List.cons_append, List.tail_cons]
        exact List.getLastD_concat _ _ _
  · exact List.getLastD_concat _ _ _

/-- With positive capacity, a `pushUndo` result is never empty. -/
theorem pushUndo_ne_nil (maxL : ℕ) (stack : List (List Shape)) (snap : List Shape)
    (h : 1 ≤ maxL) : pushUndo maxL stack snap ≠ [] := by
  have hl := pushUndo_length maxL stack snap
  intro hc
  rw [hc] at hl
  simp at hl
  split at hl <;> omega

/-- `undo` with a non-empty stack pops the newest snapshot. -/
theorem undo_of_ne_nil (s : EditorState) (h : s.undo_stack ≠ []) :
    undo s = { s with
      shapes := s.undo_stack.getLastD []
      undo_stack := s.undo_stack.dropLast
      modified := true } := by
  simp [undo, h]

/-- `undo` with an empty stack is a no-op. -/
theorem undo_of_nil (s : EditorState) (h : s.undo_stack = []) : undo s = s := by
  simp [undo, h]

/-- A primary-button press with a non-text tool starts a drag with the
draft reset to the press point. -/
theorem press_nontext (cfg : Settings) (x y : ℚ) (ok : Bool) (raw : String)
    (s : EditorState) (ht : s.current_tool ≠ Tool.text) :
    on_button_press cfg 1 x y ok raw s =
      { s with drawing := true, temp_points := [(x, y)] } := by
  simp [on_button_press, ht]

/-- Motion with the pen tool appends the point to the draft. -/
theorem on_motion_pen (x y : ℚ) (s : EditorState) (hd : s.drawing = true)
    (ht : s.current_tool = Tool.pen) :
    on_motion x y s = { s with temp_points := s.temp_points ++ [(x, y)] } := by
  simp [on_motion, hd, ht]

/-- Motion with a non-pen tool and a single-point draft appends the second
tracked point. -/
theorem on_motion_second (x y : ℚ) (s : EditorState) (hd : s.drawing = true)
    (ht : s.current_tool ≠ Tool.pen) (hl : s.temp_points.length = 1) :
    on_motion x y s = { s with temp_points := s.temp_points ++ [(x, y)] } := by
  simp [on_motion, hd, ht, hl]

/-- Motion with a non-pen tool and a two-point draft overwrites the second
tracked point. -/
theorem on_motion_replace (x y : ℚ) (s : EditorState) (p0 q : Pt) (hd : s.drawing = true)
    (ht : s.current_tool ≠ Tool.pen) (htp : s.temp_points = [p0, q]) :
    on_motion x y s = { s with temp_points := [p0, (x, y)] } := by
  simp [on_motion, hd, ht, htp]

/-- Unfolding: no motion events. -/
theorem applyMotions_nil (s : EditorState) : applyMotions [] s = s := rfl

/-- Unfolding: one motion step. -/
theorem applyMotions_cons (p : Pt) (moves : List Pt) (s : EditorState) :
    applyMotions (p :: moves) s = applyMotions moves (on_motion p.1 p.2 s) := rfl

/-- With the pen tool, a drag appends every motion point to the draft. -/
theorem applyMotions_pen (moves : List Pt) : ∀ (s : EditorState),
    s.drawing = true → s.current_tool = Tool.pen →
    applyMotions moves s = { s with temp_points := s.temp_points ++ moves } := by
  induction moves with
  | nil =>
      intro s _ _
      simp [applyMotions]
  | cons p moves ih =>
      intro s hd ht
      rw [applyMotions_cons, on_motion_pen _ _ _ hd ht,
        ih { s with temp_points := s.temp_points ++ [(p.1, p.2)] } hd ht]
      simp

/-- With a non-pen tool, a drag with at least one motion tracks exactly
two points: the start and the latest motion position. -/
theorem applyMotions_track (moves : List Pt) : ∀ (s : EditorState) (p0 : Pt),
    moves ≠ [] → s.drawing = true → s.current_tool ≠ Tool.pen →
    (s.temp_points = [p0] ∨ ∃ q, s.temp_points = [p0, q]) →
    applyMotions moves s = { s with temp_points := [p0, moves.getLastD (0, 0)] } := by
  induction moves with
  | nil =>
      intro s p0 h
      exact absurd rfl h
  | cons p moves ih =>
      intro s p0 _ hd ht htp
      have hstep : on_motion p.1 p.2 s = { s with temp_points := [p0, p] } := by
        rcases htp with h1 | ⟨q, h2⟩
        · rw [on_motion_second _ _ _ hd ht (by simp [h1])]
          simp [h1]
        · rw [on_motion_replace _ _ _ p0 q hd ht h2]
      rcases Decidable.em (moves = []) with hm | hm
      · subst hm
        rw [applyMotions_cons, hstep, applyMotions_nil]
        simp [List.getLastD_cons]
      · rw [applyMotions_cons, hstep,
          ih { s with temp_points := [p0, p] } p0 hm hd ht (Or.inr ⟨p, rfl⟩),
          getLastD_cons_of_ne_nil p moves hm]

/-- A handled primary-button release with a non-empty draft: `drawing`
cleared, snapshot pushed, shape chain applied, draft cleared, `modified`
set. -/
theorem release_run (cfg : Settings) (s : EditorState) (hd : s.drawing = true)
    (hne : s.temp_points ≠ []) :
    on_button_release cfg 1 s =
      { s with
        drawing := false
        undo_stack := pushUndo cfg.max_undo_levels s.undo_stack s.shapes
        shapes := commitShapes cfg s.current_tool s.temp_points s.shapes
        temp_points := []
        modified := true } := by
  simp [on_button_release, hd, hne]

/-- The shape chain accepts a pen draft of at least two points. -/
theorem commitShapes_pen (cfg : Settings) (tps : List Pt) (shapes : List Shape)
    (h : 2 ≤ tps.length) :
    commitShapes cfg Tool.pen tps shapes =
      shapes ++ [Shape.penStroke tps cfg.default_pen_width (get_default_color cfg)] := by
  simp [commitShapes, h]

/-- The shape chain accepts a rectangle draft of at least two tracked
points, normalizing via min/abs of the first and last tracked point. -/
theorem commitShapes_rect (cfg : Settings) (tps : List Pt) (shapes : List Shape)
    (h : 2 ≤ tps.length) :
    commitShapes cfg Tool.rect tps shapes =
      shapes ++ [Shape.rectShape
        (rmin (tps.headD (0, 0)).1 (tps.getLastD (0, 0)).1)
        (rmin (tps.headD (0, 0)).2 (tps.getLastD (0, 0)).2)
        (rabs ((tps.getLastD (0, 0)).1 - (tps.headD (0, 0)).1))
        (rabs ((tps.getLastD (0, 0)).2 - (tps.headD (0, 0)).2))
        cfg.default_rect_width (get_default_color cfg)] := by
  simp [commitShapes, h]

/-- The shape chain accepts an arrow draft of at least two tracked
points. -/
theorem commitShapes_arrow (cfg : Settings) (tps : List Pt) (shapes : List Shape)
    (h : 2 ≤ tps.length) :
    commitShapes cfg Tool.arrow tps shapes =
      shapes ++ [Shape.arrowShape
        (tps.headD (0, 0)).1 (tps.headD (0, 0)).2
        (tps.getLastD (0, 0)).1 (tps.getLastD (0, 0)).2
        cfg.default_arrow_width (get_default_color cfg)] := by
  simp [commitShapes, h]

/-- The shape chain rejects any draft of fewer than two points. -/
theorem commitShapes_short (cfg : Settings) (tool : Tool) (tps : List Pt)
    (shapes : List Shape) (h : tps.length < 2) :
    commitShapes cfg tool tps shapes = shapes := by
  have hn : ¬ 2 ≤ tps.length := by omega
  simp [commitShapes, hn]

/-- The shape chain never appends for the text tool. -/
theorem commitShapes_text (cfg : Settings) (tps : List Pt) (shapes : List Shape) :
    commitShapes cfg Tool.text tps shapes = shapes := by
  simp [commitShapes]

/-! ## Full-gesture characterizations -/

/-- A motionless click-release with any non-text tool: no shape is
accepted, yet the snapshot push, draft clearing and `modified` assignment
still happen. -/
theorem runGesture_no_moves (cfg : Settings) (s : EditorState) (start : Pt)
    (ht : s.current_tool ≠ Tool.text) :
    runGesture cfg start [] s =
      { s with
        drawing := false
        undo_stack := pushUndo cfg.max_undo_levels s.undo_stack s.shapes
        temp_points := []
        modified := true } := by
  rw [runGesture, press_nontext cfg start.1 start.2 false "" s ht, applyMotions_nil,
    release_run cfg _ rfl (by simp)]
  rw [commitShapes_short cfg _ _ _ (by simp)]

/-- A pen gesture with at least one motion commits a stroke holding the
start point followed by every motion point. -/
theorem runGesture_pen (cfg : Settings) (s : EditorState) (start : Pt)
    (moves : List Pt) (ht : s.current_tool = Tool.pen) (hm : moves ≠ []) :
    runGesture cfg start moves s =
      { s with
        drawing := false
        undo_stack := pushUndo cfg.max_undo_levels s.undo_stack s.shapes
        shapes := s.shapes ++
          [Shape.penStroke (start :: moves) cfg.default_pen_width (get_default_color cfg)]
        temp_points := []
        modified := true } := by
  have hlen : 2 ≤ ((start.1, start.2) :: moves).length := by
    have := List.length_pos.mpr hm
    simp
    omega
  have h2 : applyMotions moves { s with drawing := true, temp_points := [(start.1, start.2)] }
      = { s with drawing := true, temp_points := (start.1, start.2) :: moves } :=
    applyMotions_pen moves _ rfl ht
  rw [runGesture, press_nontext cfg start.1 start.2 false "" s (by simp [ht]), h2,
    release_run cfg { s with drawing := true, temp_points := (start.1, start.2) :: moves }
      rfl (by simp)]
  show ({ s with
            drawing := false,
            undo_stack := pushUndo cfg.max_undo_levels s.undo_stack s.shapes,
            shapes := commitShapes cfg s.current_tool ((start.1, start.2) :: moves) s.shapes,
            temp_points := [], modified := true } : EditorState) = _
  rw [ht, commitShapes_pen cfg _ _ hlen]

/-- A rectangle gesture with at least one motion commits the min/abs
normalized rectangle spanned by the start point and the last motion
point. -/
theorem runGesture_rect (cfg : Settings) (s : EditorState) (start : Pt)
    (moves : List Pt) (ht : s.current_tool = Tool.rect) (hm : moves ≠ []) :
    runGesture cfg start moves s =
      { s with
        drawing := false
        undo_stack := pushUndo cfg.max_undo_levels s.undo_stack s.shapes
        shapes := s.shapes ++
          [Shape.rectShape
            (rmin start.1 (moves.getLastD (0, 0)).1)
            (rmin start.2 (moves.getLastD (0, 0)).2)
            (rabs ((moves.getLastD (0, 0)).1 - start.1))
            (rabs ((moves.getLastD (0, 0)).2 - start.2))
            cfg.default_rect_width (get_default_color cfg)]
        temp_points := []
        modified := true } := by
  have h2 : applyMotions moves { s with drawing := true, temp_points := [(start.1, start.2)] }
      = { s with drawing := true, temp_points := [(start.1, start.2), moves.getLastD (0, 0)] } :=
    applyMotions_track moves _ (start.1, start.2) hm rfl (by simp [ht]) (Or.inl rfl)
  rw [runGesture, press_nontext cfg start.1 start.2 false "" s (by simp [ht]), h2,
    release_run cfg
      { s with drawing := true, temp_points := [(start.1, start.2), moves.getLastD (0, 0)] }
      rfl (by simp)]
  show ({ s with
            drawing := false,
            undo_stack := pushUndo cfg.max_undo_levels s.undo_stack s.shapes,
            shapes := commitShapes cfg s.current_tool [(start.1, start.2), moves.getLastD (0, 0)] s.shapes,
            temp_points := [], modified := true } : EditorState) = _
  rw [ht, commitShapes_rect cfg _ _ (by simp)]
  simp

/-- An arrow gesture with at least one motion commits an arrow from the
start point to the last motion point. -/
theorem runGesture_arrow (cfg : Settings) (s : EditorState) (start : Pt)
    (moves : List Pt) (ht : s.current_tool = Tool.arrow) (hm : moves ≠ []) :
    runGesture cfg start moves s =
      { s with
        drawing := false
        undo_stack := pushUndo cfg.max_undo_levels s.undo_stack s.shapes
        shapes := s.shapes ++
          [Shape.arrowShape start.1 start.2
            (moves.getLastD (0, 0)).1 (moves.getLastD (0, 0)).2
            cfg.default_arrow_width (get_default_color cfg)]
        temp_points := []
        modified := true } := by
  have h2 : applyMotions moves { s with drawing := true, temp_points := [(start.1, start.2)] }
      = { s with drawing := true, temp_points := [(start.1, start.2), moves.getLastD (0, 0)] } :=
    applyMotions_track moves _ (start.1, start.2) hm rfl (by simp [ht]) (Or.inl rfl)
  rw [runGesture, press_nontext cfg start.1 start.2 false "" s (by simp [ht]), h2,
    release_run cfg
      { s with drawing := true, temp_points := [(start.1, start.2), moves.getLastD (0, 0)] }
      rfl (by simp)]
  show ({ s with
            drawing := false,
            undo_stack := pushUndo cfg.max_undo_levels s.undo_stack s.shapes,
            shapes := commitShapes cfg s.current_tool [(start.1, start.2), moves.getLastD (0, 0)] s.shapes,
            temp_points := [], modified := true } : EditorState) = _
  rw [ht, commitShapes_arrow cfg _ _ (by simp)]
  simp

/-! ## Case analyses over a single event step -/

/-- The shape chain either leaves the committed list unchanged or appends
exactly one shape. -/
theorem commitShapes_cases (cfg : Settings) (tool : Tool) (tps : List Pt)
    (shapes : List Shape) :
    commitShapes cfg tool tps shapes = shapes ∨
    ∃ shp, commitShapes cfg tool tps shapes = shapes ++ [shp] := by
  rw [commitShapes]
  split
  · exact Or.inr ⟨_, rfl⟩
  · split
    · exact Or.inr ⟨_, rfl⟩
    · split
      · exact Or.inr ⟨_, rfl⟩
      · exact Or.inl rfl

/-- One event step either keeps the committed shapes, appends exactly one
shape, or (undo) replaces them with the newest stack snapshot. -/
theorem step_shapes_cases (cfg : Settings) (e : Event) (s : EditorState) :
    (stepEvent cfg e s).shapes = s.shapes ∨
    (∃ shp, (stepEvent cfg e s).shapes = s.shapes ++ [shp]) ∨
    (s.undo_stack ≠ [] ∧ (stepEvent cfg e s).shapes = s.undo_stack.getLastD []) := by
  cases e with
  | buttonPress b x y ok raw =>
      simp only [stepEvent, on_button_press]
      split
      · exact Or.inl rfl
      · split
        · simp only [create_text_at]
          split
          · split
            · exact Or.inr (Or.inl ⟨_, rfl⟩)
            · exact Or.inl rfl
          · exact Or.inl rfl
        · exact Or.inl rfl
  | motion x y =>
      simp only [stepEvent, on_motion]
      split
      · exact Or.inl rfl
      · exact Or.inl rfl
  | buttonRelease b x y =>
      simp only [stepEvent, on_button_release]
      split
      · exact Or.inl rfl
      · split
        · exact Or.inl rfl
        · rcases commitShapes_cases cfg s.current_tool s.temp_points s.shapes with h | ⟨shp, h⟩
          · exact Or.inl h
          · exact Or.inr (Or.inl ⟨shp, h⟩)
  | key k =>
      cases k with
      | ctrlZ =>
          simp only [stepEvent, on_key, undo]
          split
          · exact Or.inl rfl
          · rename_i hne
            exact Or.inr (Or.inr ⟨hne, rfl⟩)
      | keyP => exact Or.inl rfl
      | keyR => exact Or.inl rfl
      | keyA => exact Or.inl rfl
      | keyT => exact Or.inl rfl
      | ctrlShiftS ok =>
          simp only [stepEvent, on_key, quick_save]
          split
          · exact Or.inl rfl
          · exact Or.inl rfl
      | ctrlS ok =>
          simp only [stepEvent, on_key, quick_save]
          split
          · exact Or.inl rfl
          · exact Or.inl rfl
      | ctrlC => exact Or.inl rfl
      | keyReturn => exact Or.inl rfl
      | keyEscape respYes ok =>
          simp only [stepEvent, on_key, on_close, quick_save]
          split
          · split
            · exact Or.inl rfl
            · exact Or.inl rfl
          · exact Or.inl rfl
      | keyU => exact Or.inl rfl

/-- One event step either keeps the undo stack, performs a bounded push of
the current shapes, or (undo) pops its newest snapshot. -/
theorem step_stack_cases (cfg : Settings) (e : Event) (s : EditorState) :
    (stepEvent cfg e s).undo_stack = s.undo_stack ∨
    (stepEvent cfg e s).undo_stack = pushUndo cfg.max_undo_levels s.undo_stack s.shapes ∨
    (stepEvent cfg e s).undo_stack = s.undo_stack.dropLast := by
  cases e with
  | buttonPress b x y ok raw =>
      simp only [stepEvent, on_button_press]
      split
      · exact Or.inl rfl
      · split
        · simp only [create_text_at]
          split
          · split
            · exact Or.inr (Or.inl rfl)
            · exact Or.inl rfl
          · exact Or.inl rfl
        · exact Or.inl rfl
  | motion x y =>
      simp only [stepEvent, on_motion]
      split
      · exact Or.inl rfl
      · exact Or.inl rfl
  | buttonRelease b x y =>
      simp only [stepEvent, on_button_release]
      split
      · exact Or.inl rfl
      · split
        · exact Or.inl rfl
        · exact Or.inr (Or.inl rfl)
  | key k =>
      cases k with
      | ctrlZ =>
          simp only [stepEvent, on_key, undo]
          split
          · exact Or.inl rfl
          · exact Or.inr (Or.inr rfl)
      | keyP => exact Or.inl rfl
      | keyR => exact Or.inl rfl
      | keyA => exact Or.inl rfl
      | keyT => exact Or.inl rfl
      | ctrlShiftS ok =>
          simp only [stepEvent, on_key, quick_save]
          split
          · exact Or.inl rfl
          · exact Or.inl rfl
      | ctrlS ok =>
          simp only [stepEvent, on_key, quick_save]
          split
          · exact Or.inl rfl
          · exact Or.inl rfl
      | ctrlC => exact Or.inl rfl
      | keyReturn => exact Or.inl rfl
      | keyEscape respYes ok =>
          simp only [stepEvent, on_key, on_close, quick_save]
          split
          · split
            · exact Or.inl rfl
            · exact Or.inl rfl
          · exact Or.inl rfl
      | keyU => exact Or.inl rfl

/-- After an `undo` whose stack was produced by a bounded push with
positive capacity, the committed shapes are exactly the pushed
snapshot. -/
theorem undo_shapes_of_push (maxL : ℕ) (hmax : 1 ≤ maxL) (s2 : EditorState)
    (stack : List (List Shape)) (snap : List Shape)
    (h : s2.undo_stack = pushUndo maxL stack snap) : (undo s2).shapes = snap := by
  have hne : s2.undo_stack ≠ [] := by
    rw [h]
    exact pushUndo_ne_nil maxL stack snap hmax
  rw [undo_of_ne_nil s2 hne]
  show s2.undo_stack.getLastD [] = snap
  rw [h, pushUndo_getLastD maxL stack snap hmax]

/-! ## Claim theorems -/

/-- C1 (counterexample): a motionless pen click-release from the initial
state is rejected by the minimum-point policy (no shape appended), yet the
undo stack grows from 0 to 1 entries - the snapshot push at lines 493-495
happens before validation, so the claim "rejected commits push no phantom
undo entry" is false on the code. -/
theorem c1_counterexample :
    (runGesture defaultSettings (100, 100) [] initState).shapes.length
        = initState.shapes.length ∧
    (runGesture defaultSettings (100, 100) [] initState).undo_stack.length
        = initState.undo_stack.length + 1 := by
  decide

/-- C1 (amended): for every gesture whose geometry fails the minimum
policy (a click-release with no motion, any non-text tool), the committed
shape list is unchanged, but the undo stack still receives a (bounded)
push of the pre-release shapes: validation happens after the history push,
so a phantom entry is recorded. -/
theorem c1_rejected_gesture_pushes_snapshot (cfg : Settings) (s : EditorState)
    (ht : s.current_tool ≠ Tool.text) (start : Pt) :
    (runGesture cfg start [] s).shapes = s.shapes ∧
    (runGesture cfg start [] s).undo_stack
      = pushUndo cfg.max_undo_levels s.undo_stack s.shapes := by
  rw [runGesture_no_moves cfg s start ht]
  exact ⟨rfl, rfl⟩

/-- C1 witness: the amended statement at a concrete rejected gesture. -/
theorem c1_rejected_gesture_pushes_snapshot_witness :
    (runGesture defaultSettings (100, 100) [] initState).shapes = initState.shapes ∧
    (runGesture defaultSettings (100, 100) [] initState).undo_stack
      = pushUndo defaultSettings.max_undo_levels initState.undo_stack initState.shapes :=
  c1_rejected_gesture_pushes_snapshot defaultSettings initState (by decide) (100, 100)

/-- C2: with positive undo capacity (the preferences dialog only offers
5-100), an accepted drag commit appends exactly one shape and pushes a
snapshot of the previous committed list, and `undo` then restores the
committed list to exactly that previous value; `undo` on an empty history
is a no-op, not an error. -/
theorem c2_undo_inverts_commit (cfg : Settings) (s : EditorState) (start : Pt)
    (moves : List Pt) (hmax : 1 ≤ cfg.max_undo_levels)
    (ht : s.current_tool ≠ Tool.text) (hm : moves ≠ []) :
    (∃ shp, (runGesture cfg start moves s).shapes = s.shapes ++ [shp]) ∧
    (undo (runGesture cfg start moves s)).shapes = s.shapes ∧
    (∀ s2 : EditorState, s2.undo_stack = [] → undo s2 = s2) := by
  cases h : s.current_tool with
  | pen =>
      rw [runGesture_pen cfg s start moves h hm]
      exact ⟨⟨_, rfl⟩,
        undo_shapes_of_push cfg.max_undo_levels hmax _ s.undo_stack s.shapes rfl,
        fun s2 h2 => undo_of_nil s2 h2⟩
  | rect =>
      rw [runGesture_rect cfg s start moves h hm]
      exact ⟨⟨_, rfl⟩,
        undo_shapes_of_push cfg.max_undo_levels hmax _ s.undo_stack s.shapes rfl,
        fun s2 h2 => undo_of_nil s2 h2⟩
  | arrow =>
      rw [runGesture_arrow cfg s start moves h hm]
      exact ⟨⟨_, rfl⟩,
        undo_shapes_of_push cfg.max_undo_levels hmax _ s.undo_stack s.shapes rfl,
        fun s2 h2 => undo_of_nil s2 h2⟩
  | text => exact absurd h ht

/-- C2 witness: a concrete accepted arrow commit followed by undo. -/
theorem c2_undo_inverts_commit_witness :
    (∃ shp, (runGesture defaultSettings (0, 0) [(5, 5)] initState).shapes
        = initState.shapes ++ [shp]) ∧
    (undo (runGesture defaultSettings (0, 0) [(5, 5)] initState)).shapes
        = initState.shapes ∧
    (∀ s2 : EditorState, s2.undo_stack = [] → undo s2 = s2) :=
  c2_undo_inverts_commit defaultSettings initState (0, 0) [(5, 5)]
    (by decide) (by decide) (by decide)

/-- Under the capacity invariant, a push takes the stack length to
`min (length + 1) capacity`. -/
theorem pushUndo_length_min (maxL : ℕ) (stack : List (List Shape)) (snap : List Shape)
    (h : stack.length ≤ maxL) :
    (pushUndo maxL stack snap).length = min (stack.length + 1) maxL := by
  rw [pushUndo_length]
  split <;> omega

/-- Repeating the fixed accepted arrow gesture from any arrow-tool state
under the capacity invariant drives the stack length to
`min (length + n) capacity`. -/
theorem commitN_stack_length (cfg : Settings) (n : ℕ) : ∀ (s : EditorState),
    s.current_tool = Tool.arrow → s.undo_stack.length ≤ cfg.max_undo_levels →
    (commitN cfg n s).undo_stack.length
      = min (s.undo_stack.length + n) cfg.max_undo_levels := by
  induction n with
  | zero =>
      intro s _ hle
      simp [commitN]
      omega
  | succ n ih =>
      intro s ht hle
      have htool : (runGesture cfg (0, 0) [(5, 5)] s).current_tool = Tool.arrow := by
        rw [runGesture_arrow cfg s (0, 0) [(5, 5)] ht (by simp)]
        exact ht
      have hstle : (runGesture cfg (0, 0) [(5, 5)] s).undo_stack.length
          ≤ cfg.max_undo_levels := by
        rw [runGesture_arrow cfg s (0, 0) [(5, 5)] ht (by simp)]
        exact pushUndo_le _ _ _ hle
      have hstlen : (runGesture cfg (0, 0) [(5, 5)] s).undo_stack.length
          = min (s.undo_stack.length + 1) cfg.max_undo_levels := by
        rw [runGesture_arrow cfg s (0, 0) [(5, 5)] ht (by simp)]
        exact pushUndo_length_min _ _ _ hle
      show (commitN cfg n (runGesture cfg (0, 0) [(5, 5)] s)).undo_stack.length = _
      rw [ih _ htool hstle, hstlen]
      omega

/-- C3: the undo history is bounded: every event step preserves
`length undo_stack ≤ max_undo_levels`; when a push exceeds capacity the
oldest (bottom) snapshot is evicted while the newest survives as the top;
and committing `max_undo_levels + 1` times from a fresh editor leaves the
history at exactly `max_undo_levels` entries. -/
theorem c3_bounded_undo_history (cfg : Settings) :
    (∀ (e : Event) (s : EditorState), s.undo_stack.length ≤ cfg.max_undo_levels →
      (stepEvent cfg e s).undo_stack.length ≤ cfg.max_undo_levels) ∧
    (∀ (stack : List (List Shape)) (snap : List Shape),
      cfg.max_undo_levels < stack.length + 1 →
      pushUndo cfg.max_undo_levels stack snap = (stack ++ [snap]).tail) ∧
    (∀ (stack : List (List Shape)) (snap : List Shape), 1 ≤ cfg.max_undo_levels →
      (pushUndo cfg.max_undo_levels stack snap).getLastD [] = snap) ∧
    (commitN cfg (cfg.max_undo_levels + 1) initState).undo_stack.length
      = cfg.max_undo_levels := by
  refine ⟨?_, ?_, ?_, ?_⟩
  · intro e s h
    rcases step_stack_cases cfg e s with h1 | h1 | h1 <;> rw [h1]
    · exact h
    · exact pushUndo_le _ _ _ h
    · rw [List.length_dropLast]
      omega
  · intro stack snap h
    exact pushUndo_evicts_oldest _ _ _ h
  · intro stack snap h
    exact pushUndo_getLastD _ _ _ h
  · have h0 := commitN_stack_length cfg (cfg.max_undo_levels + 1) initState rfl
      (by simp [initState])
    rw [h0]
    simp [initState]

/-- C3 witness: concrete instances - an undo step under the bound, an
over-capacity push evicting the bottom of a full default-capacity stack,
and the surviving top snapshot. -/
theorem c3_bounded_undo_history_witness :
    (stepEvent defaultSettings (Event.key KeyEvent.ctrlZ) initState).undo_stack.length
        ≤ defaultSettings.max_undo_levels ∧
    pushUndo defaultSettings.max_undo_levels (List.replicate 20 []) []
        = ((List.replicate 20 ([] : List Shape)) ++ [[]]).tail ∧
    (pushUndo defaultSettings.max_undo_levels (List.replicate 20 []) []).getLastD [] = [] :=
  ⟨(c3_bounded_undo_history defaultSettings).1 _ _ (by decide),
   (c3_bounded_undo_history defaultSettings).2.1 _ _ (by decide),
   (c3_bounded_undo_history defaultSettings).2.2.1 _ _ (by decide)⟩

/-- C4: a rectangle drag from `(x1,y1)` to `(x2,y2)` commits the
normalized rectangle with `x = min x1 x2`, `y = min y1 y2`,
`w = |x2 - x1|`, `h = |y2 - y1|`; width and height are non-negative;
dragging the two corners in the reverse order produces the identical
editor state; and the drag `(50,50) -> (10,20)` yields exactly
`x 10, y 20, w 40, h 30`. -/
theorem c4_rect_normalization (cfg : Settings) (s : EditorState)
    (ht : s.current_tool = Tool.rect) (x1 y1 x2 y2 : ℚ) :
    (runGesture cfg (x1, y1) [(x2, y2)] s).shapes
      = s.shapes ++ [Shape.rectShape (min x1 x2) (min y1 y2) |x2 - x1| |y2 - y1|
          cfg.default_rect_width (get_default_color cfg)] ∧
    (0 : ℚ) ≤ |x2 - x1| ∧ (0 : ℚ) ≤ |y2 - y1| ∧
    runGesture cfg (x1, y1) [(x2, y2)] s = runGesture cfg (x2, y2) [(x1, y1)] s ∧
    (runGesture defaultSettings (50, 50) [(10, 20)]
        { initState with current_tool := Tool.rect }).shapes
      = [Shape.rectShape 10 20 40 30 3 ⟨153, 51, 255, 242⟩] := by
  have hshapes : ∀ (a1 b1 a2 b2 : ℚ) (s2 : EditorState), s2.current_tool = Tool.rect →
      (runGesture cfg (a1, b1) [(a2, b2)] s2).shapes
        = s2.shapes ++ [Shape.rectShape (min a1 a2) (min b1 b2) |a2 - a1| |b2 - b1|
            cfg.default_rect_width (get_default_color cfg)] := by
    intro a1 b1 a2 b2 s2 ht2
    rw [runGesture_rect cfg s2 (a1, b1) [(a2, b2)] ht2 (by simp)]
    show s2.shapes ++ [_] = s2.shapes ++ [_]
    simp [rmin_eq_min, rabs_eq_abs]
  refine ⟨hshapes x1 y1 x2 y2 s ht, abs_nonneg _, abs_nonneg _, ?_, ?_⟩
  · rw [runGesture_rect cfg s (x1, y1) [(x2, y2)] ht (by simp),
      runGesture_rect cfg s (x2, y2) [(x1, y1)] ht (by simp)]
    simp [EditorState.mk.injEq, rmin_eq_min, rabs_eq_abs, min_comm, abs_sub_comm]
  · rw [runGesture_rect defaultSettings _ (50, 50) [(10, 20)] rfl (by simp)]
    show ([] : List Shape) ++ [_] = [_]
    simp only [List.nil_append, List.cons.injEq, and_true, Shape.rectShape.injEq]
    norm_num [rmin, rabs, defaultSettings, get_default_color]

/-- C4 witness: the reverse-direction drag at the claim's concrete corners
produces the identical editor state. -/
theorem c4_rect_normalization_witness :
    runGesture defaultSettings (50, 50) [(10, 20)]
        { initState with current_tool := Tool.rect }
      = runGesture defaultSettings (10, 20) [(50, 50)]
        { initState with current_tool := Tool.rect } :=
  (c4_rect_normalization defaultSettings { initState with current_tool := Tool.rect }
    rfl 50 50 10 20).2.2.2.1

/-- C6 (counterexample): the acceptance test at lines 507-521 checks only
`len(temp_points) >= 2`, not distinctness - a rectangle gesture that
presses at (100,100) and receives one motion event at the same (100,100)
commits a zero-size rectangle, although its two tracked points are not
distinct. -/
theorem c6_counterexample :
    (runGesture defaultSettings (100, 100) [(100, 100)]
        { initState with current_tool := Tool.rect }).shapes
      = [Shape.rectShape 100 100 0 0 3 ⟨153, 51, 255, 242⟩] := by
  rw [runGesture_rect defaultSettings _ (100, 100) [(100, 100)] rfl (by simp)]
  show ([] : List Shape) ++ [_] = [_]
  simp only [List.nil_append, List.cons.injEq, and_true, Shape.rectShape.injEq]
  norm_num [rmin, rabs, defaultSettings, get_default_color]

/-- C6 (amended): a drag commit appends a shape if and only if at least
two points were tracked, i.e. at least one motion event arrived - for the
pen and equally for rectangle/arrow, with no distinctness requirement; in
particular the claim's motionless scenarios (rectangle press-release at
(100,100) with no movement, single-point pen stroke) commit nothing,
because only one point was tracked. -/
theorem c6_commit_iff_two_tracked_points (cfg : Settings) (s : EditorState)
    (ht : s.current_tool ≠ Tool.text) (start : Pt) (moves : List Pt) :
    ((∃ shp, (runGesture cfg start moves s).shapes = s.shapes ++ [shp]) ↔ moves ≠ []) ∧
    (runGesture defaultSettings (100, 100) []
        { initState with current_tool := Tool.rect }).shapes = [] ∧
    (runGesture defaultSettings (100, 100) []
        { initState with current_tool := Tool.pen }).shapes = [] := by
  refine ⟨⟨?_, ?_⟩, ?_, ?_⟩
  · intro hex hm
    subst hm
    rcases hex with ⟨shp, hsh⟩
    rw [runGesture_no_moves cfg s start ht] at hsh
    have hlen := congrArg List.length hsh
    simp at hlen
  · intro hm
    cases h : s.current_tool with
    | pen => exact ⟨_, by rw [runGesture_pen cfg s start moves h hm]⟩
    | rect => exact ⟨_, by rw [runGesture_rect cfg s start moves h hm]⟩
    | arrow => exact ⟨_, by rw [runGesture_arrow cfg s start moves h hm]⟩
    | text => exact absurd h ht
  · rw [runGesture_no_moves defaultSettings _ (100, 100) (by decide)]
    rfl
  · rw [runGesture_no_moves defaultSettings _ (100, 100) (by decide)]
    rfl

/-- C6 witness: the acceptance criterion at a concrete accepted arrow
gesture with one motion event. -/
theorem c6_commit_iff_two_tracked_points_witness :
    (∃ shp, (runGesture defaultSettings (0, 0) [(5, 5)] initState).shapes
        = initState.shapes ++ [shp]) ↔ ([(5, 5)] : List Pt) ≠ [] :=
  (c6_commit_iff_two_tracked_points defaultSettings initState (by decide)
    (0, 0) [(5, 5)]).1

/-- C7 (counterexample): a rejected (motionless) gesture commits nothing,
yet line 524 sets `modified = True` unconditionally on every handled
non-empty release - so `modified` becomes true on an operation that does
not change `committed_shapes`, contradicting the claim. -/
theorem c7_counterexample :
    (runGesture defaultSettings (100, 100) [] initState).modified = true ∧
    (runGesture defaultSettings (100, 100) [] initState).shapes = initState.shapes ∧
    initState.modified = false := by
  decide

/-- C7 (amended): `modified` becomes true on every handled non-empty
release (whether or not a shape was accepted) and on every undo with
non-empty history (whether or not the popped snapshot differs); it is
cleared only by a successful save; a failed save changes nothing
(committed shapes untouched, `modified` stays); a clipboard copy changes
nothing. -/
theorem c7_modified_flag (cfg : Settings) :
    (∀ (s : EditorState) (start : Pt) (moves : List Pt),
      s.current_tool ≠ Tool.text → (runGesture cfg start moves s).modified = true) ∧
    (∀ s : EditorState, s.undo_stack ≠ [] → (undo s).modified = true) ∧
    (∀ s : EditorState, s.undo_stack = [] → undo s = s) ∧
    (∀ s : EditorState, quick_save false s = s) ∧
    (∀ s : EditorState, (quick_save true s).modified = false ∧
      (quick_save true s).shapes = s.shapes ∧
      (quick_save true s).undo_stack = s.undo_stack) ∧
    (∀ s : EditorState, copy_to_clipboard s = s) := by
  refine ⟨?_, ?_, fun s h => undo_of_nil s h, fun s => rfl, fun s => ⟨rfl, rfl, rfl⟩,
    fun s => rfl⟩
  · intro s start moves ht
    rcases Decidable.em (moves = []) with hm | hm
    · subst hm
      rw [runGesture_no_moves cfg s start ht]
    · cases h : s.current_tool with
      | pen => rw [runGesture_pen cfg s start moves h hm]
      | rect => rw [runGesture_rect cfg s start moves h hm]
      | arrow => rw [runGesture_arrow cfg s start moves h hm]
      | text => exact absurd h ht
  · intro s h
    rw [undo_of_ne_nil s h]

/-- C7 witness: concrete instances of each clause. -/
theorem c7_modified_flag_witness :
    (runGesture defaultSettings (100, 100) [] initState).modified = true ∧
    (undo (runGesture defaultSettings (0, 0) [(5, 5)] initState)).modified = true ∧
    undo initState = initState ∧
    quick_save false initState = initState ∧
    (quick_save true (runGesture defaultSettings (0, 0) [(5, 5)] initState)).modified
      = false ∧
    copy_to_clipboard initState = initState :=
  ⟨(c7_modified_flag defaultSettings).1 initState (100, 100) [] (by decide),
   (c7_modified_flag defaultSettings).2.1 _ (by decide),
   (c7_modified_flag defaultSettings).2.2.1 initState (by decide),
   (c7_modified_flag defaultSettings).2.2.2.1 initState,
   ((c7_modified_flag defaultSettings).2.2.2.2.1 _).1,
   (c7_modified_flag defaultSettings).2.2.2.2.2 initState⟩

/-- C8: committing a text label whose text is empty after stripping (or
whose dialog was cancelled) changes nothing - no label, no history push,
`modified` untouched, no error surfaced; a non-empty stripped text pushes
one bounded history snapshot, appends exactly one `TextLabel`, and sets
`modified`. -/
theorem c8_text_commit_validation (cfg : Settings) (x y : ℚ) (raw : String)
    (s : EditorState) :
    (strip raw = "" → create_text_at cfg x y true raw s = s) ∧
    (create_text_at cfg x y false raw s = s) ∧
    (strip raw ≠ "" →
      (create_text_at cfg x y true raw s).shapes
        = s.shapes ++ [Shape.textLabel x y (strip raw) cfg.default_text_size
            (get_default_color cfg)] ∧
      (create_text_at cfg x y true raw s).undo_stack
        = pushUndo cfg.max_undo_levels s.undo_stack s.shapes ∧
      (create_text_at cfg x y true raw s).modified = true) := by
  refine ⟨?_, rfl, ?_⟩
  · intro h
    simp [create_text_at, h]
  · intro h
    simp [create_text_at, h]

/-- C8 witness: a whitespace-only entry commits nothing; the entry
`" hi "` commits exactly one label with text `"hi"`. -/
theorem c8_text_commit_validation_witness :
    (create_text_at defaultSettings 1 2 true " " initState = initState) ∧
    (create_text_at defaultSettings 1 2 false " hi " initState = initState) ∧
    ((create_text_at defaultSettings 1 2 true " hi " initState).shapes
      = initState.shapes ++ [Shape.textLabel 1 2 (strip " hi ")
          defaultSettings.default_text_size (get_default_color defaultSettings)] ∧
     (create_text_at defaultSettings 1 2 true " hi " initState).undo_stack
      = pushUndo defaultSettings.max_undo_levels initState.undo_stack initState.shapes ∧
     (create_text_at defaultSettings 1 2 true " hi " initState).modified = true) :=
  ⟨(c8_text_commit_validation defaultSettings 1 2 " " initState).1 (by decide),
   (c8_text_commit_validation defaultSettings 1 2 " hi " initState).2.1,
   (c8_text_commit_validation defaultSettings 1 2 " hi " initState).2.2 (by decide)⟩

/-- C9 (counterexample): starting a drag (press, `drawing = true`) with one
committed shape and one history snapshot, a Ctrl+Z key event is not
ignored: `on_key` consults `drawing` nowhere, so the undo fires, emptying
the undo stack and replacing the committed shapes - contradicting the
claim that such shortcuts are ignored while Dragging. -/
theorem c9_counterexample :
    (on_button_press defaultSettings 1 20 20 false ""
        (runGesture defaultSettings (0, 0) [(5, 5)] initState)).drawing = true ∧
    (on_button_press defaultSettings 1 20 20 false ""
        (runGesture defaultSettings (0, 0) [(5, 5)] initState)).undo_stack.length = 1 ∧
    (on_key defaultSettings KeyEvent.ctrlZ (on_button_press defaultSettings 1 20 20 false ""
        (runGesture defaultSettings (0, 0) [(5, 5)] initState))).undo_stack.length = 0 ∧
    (on_key defaultSettings KeyEvent.ctrlZ (on_button_press defaultSettings 1 20 20 false ""
        (runGesture defaultSettings (0, 0) [(5, 5)] initState))).shapes
      ≠ (on_button_press defaultSettings 1 20 20 false ""
        (runGesture defaultSettings (0, 0) [(5, 5)] initState)).shapes := by
  decide

/-- C9 (amended): keyboard shortcuts are processed identically while
Dragging and while Idle - `on_key` never consults the `drawing` flag.
Ctrl+Z during a drag performs a full `undo` (changing committed shapes and
history whenever history is non-empty), although no keyboard shortcut ever
alters the in-progress draft points or the `drawing` flag itself. -/
theorem c9_keys_fire_while_dragging (cfg : Settings) :
    (∀ s : EditorState, on_key cfg KeyEvent.ctrlZ s = undo s) ∧
    (∀ (k : KeyEvent) (s : EditorState),
      (on_key cfg k s).temp_points = s.temp_points ∧
      (on_key cfg k s).drawing = s.drawing) := by
  refine ⟨fun s => rfl, ?_⟩
  intro k s
  cases k <;>
    simp [on_key, set_tool, undo, quick_save, copy_to_clipboard, on_close] <;>
    (repeat' split) <;> simp

/-- C10: committed shapes are never mutated after commit.  (i) Every
handled primary-button release leaves the draft point list empty, whether
or not a shape was accepted; (ii) an accepted pen commit stores the draft
point list by value (the source takes `temp_points.copy()`), so the stored
stroke equals the draft at commit time; (iii) every event step either
leaves the committed list unchanged, appends one new shape at the end, or
(undo) replaces the whole list by a stored snapshot - no step rewrites an
existing element. -/
theorem c10_committed_shapes_never_mutated (cfg : Settings) :
    (∀ s : EditorState, s.drawing = true →
      (on_button_release cfg 1 s).temp_points = []) ∧
    (∀ s : EditorState, s.drawing = true → s.current_tool = Tool.pen →
      2 ≤ s.temp_points.length →
      (on_button_release cfg 1 s).shapes = s.shapes ++
        [Shape.penStroke s.temp_points cfg.default_pen_width (get_default_color cfg)]) ∧
    (∀ (e : Event) (s : EditorState),
      (stepEvent cfg e s).shapes = s.shapes ∨
      (∃ shp, (stepEvent cfg e s).shapes = s.shapes ++ [shp]) ∨
      (s.undo_stack ≠ [] ∧ (stepEvent cfg e s).shapes = s.undo_stack.getLastD [])) := by
  refine ⟨?_, ?_, step_shapes_cases cfg⟩
  · intro s hd
    rcases Decidable.em (s.temp_points = []) with h | h
    · simp [on_button_release, hd, h]
    · rw [release_run cfg s hd h]
  · intro s hd htool hlen
    have hne : s.temp_points ≠ [] := by
      intro hc
      rw [hc] at hlen
      simp at hlen
    rw [release_run cfg s hd hne]
    show commitShapes cfg s.current_tool s.temp_points s.shapes = _
    rw [htool, commitShapes_pen cfg _ _ hlen]

/-- C10 witness: a concrete handled release clears the draft, and a
concrete two-point pen commit stores exactly the draft points. -/
theorem c10_committed_shapes_never_mutated_witness :
    (on_button_release defaultSettings 1
        { initState with drawing := true, temp_points := [(1, 1)] }).temp_points = [] ∧
    (on_button_release defaultSettings 1
        { initState with current_tool := Tool.pen, drawing := true,
                         temp_points := [(1, 1), (2, 2)] }).shapes
      = ({ initState with current_tool := Tool.pen, drawing := true,
                          temp_points := [(1, 1), (2, 2)] } : EditorState).shapes ++
        [Shape.penStroke [(1, 1), (2, 2)] defaultSettings.default_pen_width
          (get_default_color defaultSettings)] :=
  ⟨(c10_committed_shapes_never_mutated defaultSettings).1 _ (by decide),
   (c10_committed_shapes_never_mutated defaultSettings).2.1 _ (by decide) (by decide)
     (by decide)⟩

/-- The angle of the concrete arrow from (0,0) to (100,0): `atan2` of a
positive real axis direction is zero. -/
theorem atan2_zero_hundred : atan2 (0 - 0 : ℝ) (100 - 0) = 0 := by
  have h1 : ((⟨100 - 0, 0 - 0⟩ : ℂ)) = (((100 : ℝ) : ℂ)) := by
    norm_num [Complex.ext_iff]
  rw [atan2, h1]
  exact Complex.arg_ofReal_of_nonneg (by norm_num)

/-- The concrete head-segment endpoints for start (0,0), end (100,0),
stroke width 3. -/
theorem draw_arrow_head_concrete :
    draw_arrow_head 0 0 100 0 3
      = ((100 - 9 * Real.sqrt 3, 9), (100 - 9 * Real.sqrt 3, -9)) := by
  rw [draw_arrow_head, draw_arrow_head_len]
  rw [atan2_zero_hundred]
  norm_num [Real.cos_pi_div_six, Real.sin_pi_div_six, Prod.ext_iff]
  ring

/-- C5: the interactive renderer (`draw_arrow`) and the export renderer
(`_save_current_image_pil`) compute identical arrow-head geometry: the
head-endpoint formulas agree for every arrow and stroke width, both head
lengths are `12 + 2 w`, and concretely for start (0,0), end (100,0),
width 3 the head length is 18 and the two head-segment endpoints lie at
angles plus/minus 30 degrees (the pi/6 offsets in the formula, giving
coordinates `(100 - 9 sqrt 3, 9)` and `(100 - 9 sqrt 3, -9)`) at distance
18 from the tip (100,0). -/
theorem c5_arrow_head_parity :
    (∀ x1 y1 x2 y2 w : ℝ, draw_arrow_head x1 y1 x2 y2 w = pil_arrow_head x1 y1 x2 y2 w) ∧
    (∀ w : ℝ, draw_arrow_head_len w = 12 + 2 * w ∧ pil_arrow_head_len w = 12 + 2 * w) ∧
    draw_arrow_head_len 3 = 18 ∧
    draw_arrow_head 0 0 100 0 3
      = ((100 - 9 * Real.sqrt 3, 9), (100 - 9 * Real.sqrt 3, -9)) ∧
    ((draw_arrow_head 0 0 100 0 3).1.1 - 100) ^ 2
      + ((draw_arrow_head 0 0 100 0 3).1.2 - 0) ^ 2 = 18 ^ 2 ∧
    ((draw_arrow_head 0 0 100 0 3).2.1 - 100) ^ 2
      + ((draw_arrow_head 0 0 100 0 3).2.2 - 0) ^ 2 = 18 ^ 2 := by
  have h3 : Real.sqrt 3 ^ 2 = 3 := Real.sq_sqrt (by norm_num)
  refine ⟨fun x1 y1 x2 y2 w => rfl,
    fun w => ⟨by rw [draw_arrow_head_len]; ring, by rw [pil_arrow_head_len]; ring⟩,
    by rw [draw_arrow_head_len]; norm_num,
    draw_arrow_head_concrete, ?_, ?_⟩
  · rw [draw_arrow_head_concrete]
    ring_nf
    nlinarith [h3]
  · rw [draw_arrow_head_concrete]
    ring_nf
    nlinarith [h3]
